import Mathlib

/-!
Shallow embedding of the room simulation engine of `src/server.js`
(a real-time multiplayer basketball server).

Modelling conventions:
* JavaScript numbers are modelled as exact rationals (`ℚ`); positions,
  velocities and timestamps are rationals.
* The JS `Map` keyed by player id is modelled as a `List Player` in insertion
  order with the id stored inside each `Player` (as in the source objects);
  `playersGet`, `playersSet`, `playersDelete` mirror `Map.get`, `Map.set`
  (which replaces in place for an existing key and appends for a fresh key)
  and `Map.delete`.
* `Date.now()` is an external input: every operation that reads the clock
  takes the current time `now : ℚ` as an explicit argument.
* JS truthiness of `ball.owner` (a string or `null`): `null` and the empty
  string are falsy, every other string is truthy (`idTruthy`).
* `Math.sqrt(dx^2 + dy^2) < c` for the positive constants 30 and 35 of the
  source is modelled by the equivalent exact comparison
  `dx^2 + dy^2 < c^2` (`distLt`); the equivalence with the real square root
  is proved below (`distLt_iff_sqrt`).
* `Math.cos(direction)` and `Math.sin(direction)` in `throwBall` are kept
  abstract as the two numbers they produce, passed as arguments `cosDir`
  and `sinDir`; for the direction 0 used by the spec they are 1 and 0.
-/

/-- Source constant `GAME_WIDTH = 1024`. -/
def GAME_WIDTH : ℚ := 1024

/-- Source constant `GAME_HEIGHT = 600`. -/
def GAME_HEIGHT : ℚ := 600

/-- Source constant `BASKET_X = GAME_WIDTH - 100`. -/
def BASKET_X : ℚ := GAME_WIDTH - 100

/-- Source constant `BASKET_Y = 150`. -/
def BASKET_Y : ℚ := 150

/-- Source constant `CENTER_X = GAME_WIDTH / 2`. -/
def CENTER_X : ℚ := GAME_WIDTH / 2

/-- Source constant `BALL_SPEED = 7`. -/
def BALL_SPEED : ℚ := 7

/-- Source constant `CENTER_Y = GAME_HEIGHT / 2`. -/
def CENTER_Y : ℚ := GAME_HEIGHT / 2

/-- Source constant `BALL_RADIUS = 10`. -/
def BALL_RADIUS : ℚ := 10

/-- One entry of the `players` map: the object literal built in
`GameRoom.addPlayer` (fields in source order). -/
structure Player where
  id : String
  name : String
  team : String
  x : ℚ
  y : ℚ
  vx : ℚ
  vy : ℚ
  hasBall : Bool
  score : ℕ
  active : Bool
deriving DecidableEq

/-- The `this.ball` object of a `GameRoom`. -/
structure Ball where
  x : ℚ
  y : ℚ
  vx : ℚ
  vy : ℚ
  owner : Option String
  inBasket : Bool
deriving DecidableEq

/-- The `this.score` object: one counter per team. -/
structure Score where
  team1 : ℕ
  team2 : ℕ
deriving DecidableEq

/-- The `GameRoom` class state. `lastUpdate` and `gameStartTime` hold
values of `Date.now()` (milliseconds, modelled as `ℚ`). -/
structure GameRoom where
  id : String
  players : List Player
  ball : Ball
  score : Score
  gameState : String
  lastUpdate : ℚ
  gameStartTime : Option ℚ
  maxPlayers : ℕ
deriving DecidableEq

/-- The `GameRoom` constructor: `new GameRoom(roomId)` with the current
clock value passed explicitly (`this.lastUpdate = Date.now()`). -/
def GameRoom.init (roomId : String) (now : ℚ) : GameRoom :=
  { id := roomId
    players := []
    ball := { x := CENTER_X, y := CENTER_Y, vx := 0, vy := 0,
              owner := none, inBasket := false }
    score := { team1 := 0, team2 := 0 }
    gameState := "waiting"
    lastUpdate := now
    gameStartTime := none
    maxPlayers := 6 }

/-- JS truthiness of the `ball.owner` field (`null` and the empty string
are falsy, any other string is truthy). -/
def idTruthy : Option String → Bool
  | none => false
  | some s => !(s == "")

/-- `this.players.get(pid)`. -/
def playersGet (ps : List Player) (pid : String) : Option Player :=
  ps.find? (fun p => p.id == pid)

/-- `this.players.set(p.id, p)`: a JS `Map` replaces the value in place for
an existing key and appends a fresh key at the end. -/
def playersSet (ps : List Player) (p : Player) : List Player :=
  if ps.any (fun q => q.id == p.id) then
    ps.map (fun q => if q.id == p.id then p else q)
  else ps ++ [p]

/-- `this.players.delete(pid)`. -/
def playersDelete (ps : List Player) (pid : String) : List Player :=
  ps.filter (fun p => !(p.id == pid))

/-- `Math.sqrt(dx^2 + dy^2) < c` for a positive constant `c`, written as the
equivalent exact comparison of squares (see `distLt_iff_sqrt`). -/
def distLt (dx dy c : ℚ) : Bool :=
  decide (dx ^ 2 + dy ^ 2 < c ^ 2)

/-- `GameRoom.addPlayer(playerId, playerData)` (source lines 54 to 74):
rejects when the room is full, otherwise assigns a team from the current
player count and inserts the new player object. Returns the JS boolean
result together with the updated room. -/
def GameRoom.addPlayer (room : GameRoom) (playerId : String)
    (playerName : String) : Bool × GameRoom :=
  if room.players.length ≥ room.maxPlayers then
    (false, room)
  else
    let team := if room.players.length < 3 then "team1" else "team2"
    let p : Player :=
      { id := playerId
        name := playerName
        team := team
        x := if team == "team1" then 100 else GAME_WIDTH - 100
        y := CENTER_Y + ((room.players.length % 3 : ℕ) : ℚ) * 80 - 80
        vx := 0
        vy := 0
        hasBall := false
        score := 0
        active := true }
    (true, { room with players := playersSet room.players p })

/-- `GameRoom.removePlayer(playerId)` (source lines 76 to 82): deletes the
player, clears ownership when the removed player owned the ball, and
returns whether the room is now empty. -/
def GameRoom.removePlayer (room : GameRoom) (playerId : String) :
    Bool × GameRoom :=
  ((playersDelete room.players playerId).length == 0,
   { room with
     players := playersDelete room.players playerId
     ball :=
       if room.ball.owner = some playerId then
         { room.ball with owner := none }
       else room.ball })

/-- `GameRoom.updatePlayerPosition(playerId, x, y, vx, vy)` (source lines
84 to 92): no-op for an unknown player, otherwise clamps the position into
the field and overwrites the velocity verbatim. -/
def GameRoom.updatePlayerPosition (room : GameRoom) (playerId : String)
    (x y vx vy : ℚ) : GameRoom :=
  { room with
    players := room.players.map (fun p =>
      if p.id == playerId then
        { p with
          x := max 0 (min (GAME_WIDTH - 20) x)
          y := max 0 (min (GAME_HEIGHT - 20) y)
          vx := vx
          vy := vy }
      else p) }

/-- `GameRoom.scorePoint(playerId)` (source lines 163 to 175): returns
early on a falsy id, otherwise awards 2 points to the team of the player
and to the personal score of the player. -/
def GameRoom.scorePoint (room : GameRoom) (playerId : Option String) :
    GameRoom :=
  if !(idTruthy playerId) then room
  else
    match playerId with
    | none => room
    | some pid =>
      match playersGet room.players pid with
      | none => room
      | some player =>
        { room with
          score :=
            if player.team == "team1" then
              { room.score with team1 := room.score.team1 + 2 }
            else
              { room.score with team2 := room.score.team2 + 2 }
          players := room.players.map (fun q =>
            if q.id == pid then { q with score := q.score + 2 } else q) }

/-- `GameRoom.resetBall()` (source lines 177 to 190): ball back to
center-field, zero velocity, no owner, and every `hasBall` flag cleared. -/
def GameRoom.resetBall (room : GameRoom) : GameRoom :=
  { room with
    ball := { x := CENTER_X, y := CENTER_Y, vx := 0, vy := 0,
              owner := none, inBasket := false }
    players := room.players.map (fun p => { p with hasBall := false }) }

/-- `GameRoom.throwBall(direction, power)` (source lines 192 to 205),
with `cosDir = Math.cos(direction)` and `sinDir = Math.sin(direction)`
passed as the numbers they evaluate to. Only acts when the ball owner is
truthy and present; the strength is `Math.min(power, 100) / 100`. -/
def GameRoom.throwBall (room : GameRoom) (cosDir sinDir power : ℚ) :
    GameRoom :=
  if idTruthy room.ball.owner then
    match room.ball.owner with
    | none => room
    | some oid =>
      match playersGet room.players oid with
      | none => room
      | some _owner =>
        { room with
          ball := { room.ball with
                    vx := cosDir * (min power 100 / 100)
                    vy := sinDir * (min power 100 / 100)
                    owner := none }
          players := room.players.map (fun q =>
            if q.id == oid then { q with hasBall := false } else q) }
  else room

/-- `GameRoom.startGame()` (source lines 207 to 215): requires at least 2
players; on success flips the phase to playing and stamps both
`gameStartTime` and `lastUpdate` with the current clock. -/
def GameRoom.startGame (room : GameRoom) (now : ℚ) : Bool × GameRoom :=
  if room.players.length ≥ 2 then
    (true, { room with
             gameState := "playing"
             gameStartTime := some now
             lastUpdate := now })
  else (false, room)

/-- Free-flight integration of the ball (source lines 107 to 114):
position advances by the pre-step velocity, then gravity is added to `vy`
and both components are damped by 0.98 (assignment order of the source:
position first, then `vy += 5 * dt`, then `vx *= 0.98`, then
`vy *= 0.98`, composed here into one record update). -/
def ballPhysics (b : Ball) (timeDelta : ℚ) : Ball :=
  { b with
    x := b.x + b.vx * timeDelta * BALL_SPEED
    y := b.y + b.vy * timeDelta * BALL_SPEED
    vx := b.vx * 0.98
    vy := (b.vy + 5 * timeDelta) * 0.98 }

/-- Left boundary check (source lines 117 to 120). -/
def wallLeft (b : Ball) : Ball :=
  if b.x - BALL_RADIUS < 0 then { b with x := BALL_RADIUS, vx := |b.vx| }
  else b

/-- Right boundary check (source lines 121 to 124). -/
def wallRight (b : Ball) : Ball :=
  if b.x + BALL_RADIUS > GAME_WIDTH then
    { b with x := GAME_WIDTH - BALL_RADIUS, vx := -|b.vx| }
  else b

/-- Top boundary check (source lines 125 to 128). -/
def wallTop (b : Ball) : Ball :=
  if b.y - BALL_RADIUS < 0 then { b with y := BALL_RADIUS, vy := |b.vy| }
  else b

/-- Bottom boundary check with the 0.7 restitution factor (source lines
129 to 132). -/
def wallBottom (b : Ball) : Ball :=
  if b.y + BALL_RADIUS > GAME_HEIGHT then
    { b with y := GAME_HEIGHT - BALL_RADIUS, vy := -|b.vy| * 0.7 }
  else b

/-- Wall collision of the ball (source lines 116 to 132): the four
boundary checks in source order, each acting on the result of the
previous one. -/
def ballWalls (b : Ball) : Ball :=
  wallBottom (wallTop (wallRight (wallLeft b)))

/-- Basket check (source lines 134 to 144): when the ball center is within
30 units of the basket point, set `inBasket`, call `scorePoint` with the
current `ball.owner` (unchanged by setting `inBasket`), and reset the
ball. -/
def basketStep (room : GameRoom) : GameRoom :=
  if distLt (room.ball.x - BASKET_X) (room.ball.y - BASKET_Y) 30 then
    (GameRoom.scorePoint
      { room with ball := { room.ball with inBasket := true } }
      room.ball.owner).resetBall
  else room

/-- Owner branch of the physics step (source lines 100 to 105): the ball
snaps to the owner position plus the fixed offset. -/
def ownerCarry (room : GameRoom) : GameRoom :=
  match room.ball.owner with
  | none => room
  | some oid =>
    match playersGet room.players oid with
    | none => room
    | some owner =>
      { room with ball := { room.ball with x := owner.x + 15,
                                           y := owner.y + 15 } }

/-- One iteration of the possession pickup loop (source lines 148 to 159):
when the ball is free (falsy owner) and the player is within 35 units, the
player gains possession. -/
def pickupStep (b : Ball) (p : Player) : Ball × Player :=
  if !(idTruthy b.owner) then
    if distLt (b.x - p.x) (b.y - p.y) 35 then
      ({ b with owner := some p.id }, { p with hasBall := true })
    else (b, p)
  else (b, p)

/-- The `players.forEach` pickup loop (source lines 147 to 160), folding
`pickupStep` over the players in insertion order. -/
def pickupScan : Ball → List Player → Ball × List Player
  | b, [] => (b, [])
  | b, p :: ps =>
    ((pickupScan (pickupStep b p).1 ps).1,
     (pickupStep b p).2 :: (pickupScan (pickupStep b p).1 ps).2)

/-- Pickup phase applied to a room. -/
def pickupPhase (room : GameRoom) : GameRoom :=
  { room with
    ball := (pickupScan room.ball room.players).1
    players := (pickupScan room.ball room.players).2 }

/-- `GameRoom.updateBall()` (source lines 94 to 161) with `Date.now()`
passed as `now`: no-op outside the playing phase; otherwise advances
`lastUpdate`, runs either the owner branch or the free-flight branch
(integration, walls, basket), then the pickup loop. -/
def GameRoom.updateBall (room : GameRoom) (now : ℚ) : GameRoom :=
  if room.gameState ≠ "playing" then room
  else
    pickupPhase
      (if idTruthy room.ball.owner then
        ownerCarry { room with lastUpdate := now }
      else
        basketStep
          { room with
            lastUpdate := now
            ball := ballWalls
              (ballPhysics room.ball ((now - room.lastUpdate) / 1000)) })

/-- The room operations named by the specification claims, plus the two
handler-level phase flips (`pause-game` and `resume-game` set
`room.gameState` directly in the source, lines 318 to 338). -/
inductive Op where
  | addPlayer (pid playerName : String)
  | removePlayer (pid : String)
  | updatePlayerPosition (pid : String) (x y vx vy : ℚ)
  | throwBall (cosDir sinDir power : ℚ)
  | startGame (now : ℚ)
  | updateBall (now : ℚ)
  | pauseGame
  | resumeGame

/-- State transition of one room operation. -/
def stepOp (room : GameRoom) : Op → GameRoom
  | .addPlayer pid playerName => (room.addPlayer pid playerName).2
  | .removePlayer pid => (room.removePlayer pid).2
  | .updatePlayerPosition pid x y vx vy =>
      room.updatePlayerPosition pid x y vx vy
  | .throwBall c s p => room.throwBall c s p
  | .startGame now => (room.startGame now).2
  | .updateBall now => room.updateBall now
  | .pauseGame => { room with gameState := "paused" }
  | .resumeGame => { room with gameState := "playing" }

/-- Folding a sequence of operations over a room. -/
def runOps (room : GameRoom) (ops : List Op) : GameRoom :=
  ops.foldl stepOp room

/-- The possession invariant of the specification, as a predicate on the
owner field and the player list: the owner, if set, names a present
player, and a player carries `hasBall` exactly when they are the owner. -/
def possClaimOk (owner : Option String) (ps : List Player) : Prop :=
  (owner = none ∨ ∃ p ∈ ps, some p.id = owner) ∧
  (∀ p ∈ ps, (p.hasBall = true ↔ owner = some p.id))

/-- Well-formedness of the player list: distinct ids (a JS `Map` has unique
keys) and nonempty ids (socket session ids are nonempty strings, so they
are truthy). -/
def idsOk (ps : List Player) : Prop :=
  (ps.map Player.id).Nodup ∧ ∀ p ∈ ps, p.id ≠ ""

/-- The possession invariant exactly as the claim states it. -/
def PossInvClaim (room : GameRoom) : Prop :=
  possClaimOk room.ball.owner room.players

/-- The possession invariant together with well-formed ids. -/
def PossInv (room : GameRoom) : Prop :=
  possClaimOk room.ball.owner room.players ∧ idsOk room.players

instance (owner : Option String) (ps : List Player) :
    Decidable (possClaimOk owner ps) := by
  unfold possClaimOk; infer_instance

instance (ps : List Player) : Decidable (idsOk ps) := by
  unfold idsOk; infer_instance

instance (room : GameRoom) : Decidable (PossInvClaim room) := by
  unfold PossInvClaim; infer_instance

instance (room : GameRoom) : Decidable (PossInv room) := by
  unfold PossInv; infer_instance

/-- Modelled from the spec: the claim says `power` is clamped to `[0, 100]`
and normalized to `[0, 1]`. This is the normalization the claim describes;
the source computes `Math.min(power, 100) / 100` instead, with no lower
clamp. -/
def specNormalizedPower (power : ℚ) : ℚ :=
  max 0 (min power 100) / 100

/-- Server-level state for one room of the tick scheduler (source lines
383 to 402): the room plus whether an interval timer is registered for it
in `gameLoops`. The registry and other rooms are not needed for the claims
about a single room. -/
structure ServerState where
  room : GameRoom
  loopRunning : Bool
deriving DecidableEq

/-- Socket events that drive the scheduler: the `start-game`,
`pause-game` and `resume-game` handlers (source lines 307 to 338) and one
firing of the interval callback of `startGameLoop` (source lines 388 to
399). A `tick` event can only occur while a timer is registered; the
fixed 60 per second rate only determines when ticks happen, not what they
do, so ticks are modelled as discrete events. -/
inductive SEv where
  | startGameMsg (now : ℚ)
  | pauseMsg
  | resumeMsg
  | tick (now : ℚ)

/-- Transition of one server event. `start-game` calls `room.startGame()`
and on success `startGameLoop` (idempotent registration); `pause-game` and
`resume-game` set `gameState` directly and do not touch the timer; a tick
of the registered timer cancels itself when the phase is not playing, and
otherwise runs `updateBall` (the broadcast has no state effect). -/
def srvStep (s : ServerState) : SEv → ServerState
  | .startGameMsg now =>
    if (s.room.startGame now).1 then
      { room := (s.room.startGame now).2, loopRunning := true }
    else { s with room := (s.room.startGame now).2 }
  | .pauseMsg => { s with room := { s.room with gameState := "paused" } }
  | .resumeMsg => { s with room := { s.room with gameState := "playing" } }
  | .tick now =>
    if s.loopRunning then
      if s.room.gameState ≠ "playing" then { s with loopRunning := false }
      else { s with room := s.room.updateBall now }
    else s

/-- Folding a sequence of server events. -/
def srvRun (s : ServerState) (evs : List SEv) : ServerState :=
  evs.foldl srvStep s

/-- A player object as built by a join (used in concrete scenarios). -/
def pA : Player :=
  { id := "a", name := "A", team := "team1", x := 100, y := 300,
    vx := 0, vy := 0, hasBall := false, score := 0, active := true }

/-- A second concrete player on team2. -/
def pB : Player :=
  { id := "b", name := "B", team := "team2", x := 924, y := 300,
    vx := 0, vy := 0, hasBall := false, score := 0, active := true }

/-- A concrete player who currently holds the ball. -/
def pOwn : Player :=
  { id := "a", name := "A", team := "team1", x := 100, y := 300,
    vx := 0, vy := 0, hasBall := true, score := 0, active := true }

/-- A playing room whose free ball sits exactly on the basket point, one
step after a team1 player released it (ownership already cleared by the
throw, as the source always does). -/
def roomBasket : GameRoom :=
  { id := "r", players := [pA, pB],
    ball := { x := 924, y := 150, vx := 0, vy := 0,
              owner := none, inBasket := false },
    score := { team1 := 0, team2 := 0 },
    gameState := "playing", lastUpdate := 0, gameStartTime := none,
    maxPlayers := 6 }

/-- A playing room with a free ball just past the left boundary. -/
def roomWall : GameRoom :=
  { id := "r", players := [],
    ball := { x := -5, y := 300, vx := -3, vy := 0,
              owner := none, inBasket := false },
    score := { team1 := 0, team2 := 0 },
    gameState := "playing", lastUpdate := 0, gameStartTime := none,
    maxPlayers := 6 }

/-- A waiting room holding two players (join order a then b). -/
def roomTwoW : GameRoom :=
  runOps (GameRoom.init "r" 0) [.addPlayer "a" "A", .addPlayer "b" "B"]

/-- Three joins, one removal, then a fourth join: the scenario refuting
the join-order team rule. -/
def roomC6 : GameRoom :=
  runOps (GameRoom.init "r" 0)
    [.addPlayer "a" "A", .addPlayer "b" "B", .addPlayer "c" "C",
     .removePlayer "a", .addPlayer "d" "D"]

/-- A room whose ball is owned by player a. -/
def roomOwned : GameRoom :=
  { id := "r", players := [pOwn],
    ball := { x := 115, y := 315, vx := 0, vy := 0,
              owner := some "a", inBasket := false },
    score := { team1 := 0, team2 := 0 },
    gameState := "playing", lastUpdate := 0, gameStartTime := none,
    maxPlayers := 6 }

/-- A room satisfying the possession invariant, about to receive a second
join that reuses the present player id. -/
def roomDup : GameRoom :=
  { id := "r", players := [pOwn],
    ball := { x := 115, y := 315, vx := 0, vy := 0,
              owner := some "a", inBasket := false },
    score := { team1 := 0, team2 := 0 },
    gameState := "playing", lastUpdate := 0, gameStartTime := none,
    maxPlayers := 6 }

/-- A full room: six successful joins. -/
def roomFull : GameRoom :=
  runOps (GameRoom.init "r" 0)
    [.addPlayer "a" "A", .addPlayer "b" "B", .addPlayer "c" "C",
     .addPlayer "d" "D", .addPlayer "e" "E", .addPlayer "f" "F"]

/-- The pause-then-resume trace: game started (timer registered), paused,
one timer tick elapses during the pause (the timer cancels itself), then
resumed. -/
def sPauseResume : ServerState :=
  srvRun { room := roomTwoW, loopRunning := false }
    [.startGameMsg 0, .pauseMsg, .tick 16, .resumeMsg]

/-! ### Helper lemmas -/

/-- Faithfulness of `distLt`: for a positive bound it coincides with the
square-root comparison computed by the source. -/
theorem distLt_iff_sqrt (dx dy c : ℚ) (hc : 0 < c) :
    distLt dx dy c = true ↔
      Real.sqrt ((dx : ℝ) ^ 2 + (dy : ℝ) ^ 2) < (c : ℝ) := by
  rw [distLt, decide_eq_true_iff]
  rw [show ((dx : ℝ) ^ 2 + (dy : ℝ) ^ 2) = ((dx ^ 2 + dy ^ 2 : ℚ) : ℝ) by push_cast; ring]
  rw [Real.sqrt_lt' (by exact_mod_cast hc)]
  exact_mod_cast Iff.rfl

/-- One pickup iteration either leaves ball and player alone or hands the
ball to this player. -/
lemma pickupStep_cases (b : Ball) (p : Player) :
    pickupStep b p = (b, p) ∨
    (idTruthy b.owner = false ∧
      pickupStep b p =
        ({ b with owner := some p.id }, { p with hasBall := true })) := by
  unfold pickupStep
  split_ifs with h1 h2
  · exact Or.inr ⟨by simpa using h1, rfl⟩
  · exact Or.inl rfl
  · exact Or.inl rfl

/-- The pickup loop does not move the ball. -/
lemma pickupScan_ball_motion (b : Ball) (ps : List Player) :
    (pickupScan b ps).1.x = b.x ∧ (pickupScan b ps).1.y = b.y ∧
    (pickupScan b ps).1.vx = b.vx ∧ (pickupScan b ps).1.vy = b.vy ∧
    (pickupScan b ps).1.inBasket = b.inBasket := by
  induction ps generalizing b with
  | nil => exact ⟨rfl, rfl, rfl, rfl, rfl⟩
  | cons p ps ih =>
    rcases pickupStep_cases b p with h | ⟨-, h⟩ <;>
      simpa [pickupScan, h] using ih _

/-- The pickup loop preserves the length, ids and scores of the players. -/
lemma pickupScan_players (b : Ball) (ps : List Player) :
    (pickupScan b ps).2.map Player.score = ps.map Player.score ∧
    (pickupScan b ps).2.map Player.id = ps.map Player.id ∧
    (pickupScan b ps).2.length = ps.length := by
  induction ps generalizing b with
  | nil => exact ⟨rfl, rfl, rfl⟩
  | cons p ps ih =>
    rcases pickupStep_cases b p with h | ⟨-, h⟩ <;>
      simpa [pickupScan, h] using ih _

/-- A truthy owner blocks the whole pickup loop. -/
lemma pickupScan_truthy (b : Ball) (ps : List Player)
    (h : idTruthy b.owner = true) : pickupScan b ps = (b, ps) := by
  induction ps with
  | nil => rfl
  | cons p ps ih => simp [pickupScan, pickupStep, h, ih]

/-- The pickup phase preserves everything except ball ownership and
`hasBall` flags. -/
lemma pickupPhase_frame (r : GameRoom) :
    (pickupPhase r).score = r.score ∧
    (pickupPhase r).players.map Player.score = r.players.map Player.score ∧
    (pickupPhase r).players.length = r.players.length ∧
    (pickupPhase r).gameState = r.gameState ∧
    (pickupPhase r).gameStartTime = r.gameStartTime ∧
    (pickupPhase r).maxPlayers = r.maxPlayers ∧
    (pickupPhase r).id = r.id ∧
    (pickupPhase r).lastUpdate = r.lastUpdate ∧
    (pickupPhase r).players.map Player.id = r.players.map Player.id ∧
    (pickupPhase r).ball.x = r.ball.x ∧
    (pickupPhase r).ball.vx = r.ball.vx := by
  obtain ⟨h1, h2, h3⟩ := pickupScan_players r.ball r.players
  obtain ⟨h4, h5, h6, h7, h8⟩ := pickupScan_ball_motion r.ball r.players
  exact ⟨rfl, h1, h3, rfl, rfl, rfl, rfl, rfl, h2, h4, h6⟩

/-- The owner branch of the physics step only moves the ball. -/
lemma ownerCarry_frame (r : GameRoom) :
    (ownerCarry r).score = r.score ∧
    (ownerCarry r).players = r.players ∧
    (ownerCarry r).gameState = r.gameState ∧
    (ownerCarry r).gameStartTime = r.gameStartTime ∧
    (ownerCarry r).maxPlayers = r.maxPlayers ∧
    (ownerCarry r).id = r.id ∧
    (ownerCarry r).lastUpdate = r.lastUpdate ∧
    (ownerCarry r).ball.owner = r.ball.owner := by
  unfold ownerCarry
  repeat' split
  all_goals exact ⟨rfl, rfl, rfl, rfl, rfl, rfl, rfl, rfl⟩

/-- Free-flight integration does not change ownership. -/
lemma ballPhysics_owner (b : Ball) (dt : ℚ) :
    (ballPhysics b dt).owner = b.owner := rfl

/-- The left check changes only the horizontal components. -/
lemma wallLeft_frame (b : Ball) :
    (wallLeft b).owner = b.owner ∧ (wallLeft b).inBasket = b.inBasket ∧
    (wallLeft b).y = b.y ∧ (wallLeft b).vy = b.vy := by
  unfold wallLeft
  split_ifs <;> simp

/-- The right check changes only the horizontal components. -/
lemma wallRight_frame (b : Ball) :
    (wallRight b).owner = b.owner ∧ (wallRight b).inBasket = b.inBasket ∧
    (wallRight b).y = b.y ∧ (wallRight b).vy = b.vy := by
  unfold wallRight
  split_ifs <;> simp

/-- The top check changes only the vertical components. -/
lemma wallTop_frame (b : Ball) :
    (wallTop b).owner = b.owner ∧ (wallTop b).inBasket = b.inBasket ∧
    (wallTop b).x = b.x ∧ (wallTop b).vx = b.vx := by
  unfold wallTop
  split_ifs <;> simp

/-- The bottom check changes only the vertical components. -/
lemma wallBottom_frame (b : Ball) :
    (wallBottom b).owner = b.owner ∧ (wallBottom b).inBasket = b.inBasket ∧
    (wallBottom b).x = b.x ∧ (wallBottom b).vx = b.vx := by
  unfold wallBottom
  split_ifs <;> simp

/-- Wall collision does not change ownership. -/
lemma ballWalls_owner (b : Ball) : (ballWalls b).owner = b.owner := by
  unfold ballWalls
  rw [(wallBottom_frame _).1, (wallTop_frame _).1, (wallRight_frame _).1,
      (wallLeft_frame _).1]

/-- A falsy id makes `scorePoint` return the room unchanged. -/
lemma scorePoint_falsy (r : GameRoom) (pid : Option String)
    (h : idTruthy pid = false) : r.scorePoint pid = r := by
  unfold GameRoom.scorePoint
  rw [if_pos (by simp [h])]

/-- Fields preserved by `scorePoint`. -/
lemma scorePoint_frame (r : GameRoom) (pid : Option String) :
    (r.scorePoint pid).ball = r.ball ∧
    (r.scorePoint pid).gameState = r.gameState ∧
    (r.scorePoint pid).gameStartTime = r.gameStartTime ∧
    (r.scorePoint pid).maxPlayers = r.maxPlayers ∧
    (r.scorePoint pid).lastUpdate = r.lastUpdate ∧
    (r.scorePoint pid).id = r.id ∧
    (r.scorePoint pid).players.length = r.players.length := by
  unfold GameRoom.scorePoint
  repeat' split
  all_goals simp

/-- Fields preserved by `resetBall`. -/
lemma resetBall_frame (r : GameRoom) :
    r.resetBall.score = r.score ∧
    r.resetBall.players.map Player.score = r.players.map Player.score ∧
    r.resetBall.players.map Player.id = r.players.map Player.id ∧
    r.resetBall.players.length = r.players.length ∧
    r.resetBall.gameState = r.gameState ∧
    r.resetBall.gameStartTime = r.gameStartTime ∧
    r.resetBall.maxPlayers = r.maxPlayers ∧
    r.resetBall.id = r.id ∧
    r.resetBall.lastUpdate = r.lastUpdate := by
  unfold GameRoom.resetBall
  refine ⟨rfl, ?_, ?_, by simp, rfl, rfl, rfl, rfl, rfl⟩
  · simp only [List.map_map]
    rfl
  · simp only [List.map_map]
    rfl

/-- Fields preserved by the basket check when the recorded owner is falsy
(which is the only way the source ever reaches it). -/
lemma basketStep_frame (r : GameRoom) (h : idTruthy r.ball.owner = false) :
    (basketStep r).score = r.score ∧
    (basketStep r).players.map Player.score = r.players.map Player.score ∧
    (basketStep r).players.map Player.id = r.players.map Player.id ∧
    (basketStep r).players.length = r.players.length ∧
    (basketStep r).gameState = r.gameState ∧
    (basketStep r).gameStartTime = r.gameStartTime ∧
    (basketStep r).maxPlayers = r.maxPlayers ∧
    (basketStep r).id = r.id ∧
    (basketStep r).lastUpdate = r.lastUpdate := by
  unfold basketStep
  split_ifs with hd
  · rw [scorePoint_falsy _ _ (by simpa using h)]
    exact resetBall_frame _
  · exact ⟨rfl, rfl, rfl, rfl, rfl, rfl, rfl, rfl, rfl⟩

/-- Crossing the left boundary: position clamps to the radius and the
horizontal velocity reflects to its absolute value; the later checks
cannot fire on the clamped position. -/
lemma ballWalls_left (b : Ball) (h : b.x - BALL_RADIUS < 0) :
    (ballWalls b).x = BALL_RADIUS ∧ (ballWalls b).vx = |b.vx| := by
  unfold ballWalls
  have h1 : wallLeft b = { b with x := BALL_RADIUS, vx := |b.vx| } := by
    unfold wallLeft
    rw [if_pos h]
  have h2 : wallRight (wallLeft b) = wallLeft b := by
    unfold wallRight
    rw [h1, if_neg (by norm_num [BALL_RADIUS, GAME_WIDTH])]
  rw [h2, (wallBottom_frame _).2.2.1, (wallBottom_frame _).2.2.2,
      (wallTop_frame _).2.2.1, (wallTop_frame _).2.2.2, h1]
  exact ⟨rfl, rfl⟩

/-- Crossing the right boundary (which excludes the left one): position
clamps and the horizontal velocity reflects to point left. -/
lemma ballWalls_right (b : Ball) (h : b.x + BALL_RADIUS > GAME_WIDTH) :
    (ballWalls b).x = GAME_WIDTH - BALL_RADIUS ∧ (ballWalls b).vx = -|b.vx| := by
  unfold ballWalls
  have h0 : wallLeft b = b := by
    unfold wallLeft
    rw [if_neg (by rw [not_lt]; rw [gt_iff_lt] at h; norm_num [BALL_RADIUS, GAME_WIDTH] at h ⊢; linarith)]
  have h2 : wallRight b = { b with x := GAME_WIDTH - BALL_RADIUS, vx := -|b.vx| } := by
    unfold wallRight
    rw [if_pos h]
  rw [h0, h2, (wallBottom_frame _).2.2.1, (wallBottom_frame _).2.2.2,
      (wallTop_frame _).2.2.1, (wallTop_frame _).2.2.2]
  exact ⟨rfl, rfl⟩

/-- Crossing the top boundary: vertical position clamps and the vertical
velocity reflects downward; the bottom check cannot fire afterwards. The
horizontal checks do not touch the vertical components. -/
lemma ballWalls_top (b : Ball) (h : b.y - BALL_RADIUS < 0) :
    (ballWalls b).y = BALL_RADIUS ∧ (ballWalls b).vy = |b.vy| := by
  unfold ballWalls
  have hy : (wallRight (wallLeft b)).y = b.y := by
    rw [(wallRight_frame _).2.2.1, (wallLeft_frame _).2.2.1]
  have hvy : (wallRight (wallLeft b)).vy = b.vy := by
    rw [(wallRight_frame _).2.2.2, (wallLeft_frame _).2.2.2]
  have h3 : wallTop (wallRight (wallLeft b)) =
      { wallRight (wallLeft b) with y := BALL_RADIUS, vy := |b.vy| } := by
    unfold wallTop
    rw [hy, hvy, if_pos h]
  have h4 : wallBottom (wallTop (wallRight (wallLeft b))) =
      wallTop (wallRight (wallLeft b)) := by
    unfold wallBottom
    rw [h3]
    exact if_neg (by norm_num [BALL_RADIUS, GAME_HEIGHT])
  rw [h4, h3]
  exact ⟨rfl, rfl⟩

/-- Crossing the bottom boundary (which excludes the top one): vertical
position clamps and the vertical velocity reflects upward with the 0.7
restitution factor. -/
lemma ballWalls_bottom (b : Ball) (h : b.y + BALL_RADIUS > GAME_HEIGHT) :
    (ballWalls b).y = GAME_HEIGHT - BALL_RADIUS ∧
    (ballWalls b).vy = -|b.vy| * 0.7 := by
  unfold ballWalls
  have hy : (wallRight (wallLeft b)).y = b.y := by
    rw [(wallRight_frame _).2.2.1, (wallLeft_frame _).2.2.1]
  have hvy : (wallRight (wallLeft b)).vy = b.vy := by
    rw [(wallRight_frame _).2.2.2, (wallLeft_frame _).2.2.2]
  have h3 : wallTop (wallRight (wallLeft b)) = wallRight (wallLeft b) := by
    unfold wallTop
    rw [hy]
    refine if_neg ?_
    rw [not_lt]
    rw [gt_iff_lt] at h
    norm_num [BALL_RADIUS, GAME_HEIGHT] at h ⊢
    linarith
  have h4 : wallBottom (wallRight (wallLeft b)) =
      { wallRight (wallLeft b) with
        y := GAME_HEIGHT - BALL_RADIUS, vy := -|b.vy| * 0.7 } := by
    unfold wallBottom
    rw [hy, hvy, if_pos h]
  rw [h3, h4]
  exact ⟨rfl, rfl⟩

/-- A ball sitting on the left clamp position is far from the basket, so
the basket check does nothing. -/
lemma basketStep_far (r : GameRoom) (h : r.ball.x = BALL_RADIUS) :
    basketStep r = r := by
  unfold basketStep
  refine if_neg ?_
  rw [h]
  simp only [distLt, decide_eq_true_eq, not_lt, BALL_RADIUS, BASKET_X,
    BASKET_Y, GAME_WIDTH]
  nlinarith [sq_nonneg (r.ball.y - 150)]

/-- One physics step preserves the team score, every personal score, the
player count and ids, the phase, `gameStartTime`, `maxPlayers` and the
room id: in this code base `scorePoint` is only ever reached with a falsy
owner, so no step can change any score. -/
lemma updateBall_frame (room : GameRoom) (now : ℚ) :
    (room.updateBall now).score = room.score ∧
    (room.updateBall now).players.map Player.score =
      room.players.map Player.score ∧
    (room.updateBall now).players.length = room.players.length ∧
    (room.updateBall now).gameState = room.gameState ∧
    (room.updateBall now).gameStartTime = room.gameStartTime ∧
    (room.updateBall now).maxPlayers = room.maxPlayers ∧
    (room.updateBall now).id = room.id := by
  unfold GameRoom.updateBall
  split_ifs with h1 h2
  · exact ⟨rfl, rfl, rfl, rfl, rfl, rfl, rfl⟩
  · obtain ⟨p1, p2, p3, p4, p5, p6, p7, p8, -, -, -⟩ :=
      pickupPhase_frame (ownerCarry { room with lastUpdate := now })
    obtain ⟨o1, o2, o3, o4, o5, o6, -, -⟩ :=
      ownerCarry_frame { room with lastUpdate := now }
    exact ⟨p1.trans o1, p2.trans (by rw [o2]), p3.trans (by rw [o2]),
      p4.trans o3, p5.trans o4, p6.trans o5, p7.trans o6⟩
  · have hfalsy : idTruthy
        (ballWalls (ballPhysics room.ball ((now - room.lastUpdate) / 1000))).owner
          = false := by
      rw [ballWalls_owner, ballPhysics_owner]
      simpa using h2
    obtain ⟨p1, p2, p3, p4, p5, p6, p7, p8, -, -, -⟩ :=
      pickupPhase_frame (basketStep
        { room with
          lastUpdate := now
          ball := ballWalls (ballPhysics room.ball ((now - room.lastUpdate) / 1000)) })
    obtain ⟨b1, b2, b3, b4, b5, b6, b7, b8, b9⟩ :=
      basketStep_frame
        { room with
          lastUpdate := now
          ball := ballWalls (ballPhysics room.ball ((now - room.lastUpdate) / 1000)) }
        hfalsy
    exact ⟨p1.trans b1, p2.trans b2, p3.trans b4, p4.trans b5, p5.trans b6,
      p6.trans b7, p7.trans b8⟩

/-- Frame facts for `throwBall`: everything but the ball velocity,
ownership and `hasBall` flags is preserved. -/
lemma throwBall_frame (room : GameRoom) (c s pw : ℚ) :
    (room.throwBall c s pw).score = room.score ∧
    (room.throwBall c s pw).gameState = room.gameState ∧
    (room.throwBall c s pw).gameStartTime = room.gameStartTime ∧
    (room.throwBall c s pw).maxPlayers = room.maxPlayers ∧
    (room.throwBall c s pw).players.length = room.players.length ∧
    (room.throwBall c s pw).lastUpdate = room.lastUpdate := by
  unfold GameRoom.throwBall
  repeat' split
  all_goals simp

/-- A JS `Map.set` grows the map by at most one entry. -/
lemma playersSet_length_le (ps : List Player) (p : Player) :
    (playersSet ps p).length ≤ ps.length + 1 := by
  unfold playersSet
  split_ifs <;> simp

/-- Every operation leaves `maxPlayers` unchanged. -/
lemma stepOp_maxPlayers (room : GameRoom) (op : Op) :
    (stepOp room op).maxPlayers = room.maxPlayers := by
  cases op with
  | addPlayer pid pname =>
    unfold stepOp GameRoom.addPlayer
    split_ifs <;> rfl
  | removePlayer pid => rfl
  | updatePlayerPosition pid x y vx vy => rfl
  | throwBall c s pw => exact (throwBall_frame room c s pw).2.2.2.1
  | startGame now =>
    unfold stepOp GameRoom.startGame
    split_ifs <;> rfl
  | updateBall now => exact (updateBall_frame room now).2.2.2.2.2.1
  | pauseGame => rfl
  | resumeGame => rfl

/-- Every operation keeps the player count within the capacity. -/
lemma stepOp_capacity (room : GameRoom) (op : Op)
    (h : room.players.length ≤ room.maxPlayers) :
    (stepOp room op).players.length ≤ (stepOp room op).maxPlayers := by
  rw [stepOp_maxPlayers room op]
  cases op with
  | addPlayer pid pname =>
    show (room.addPlayer pid pname).2.players.length ≤ room.maxPlayers
    simp only [GameRoom.addPlayer]
    split_ifs with hfull hteam
    · exact h
    all_goals
      refine le_trans (playersSet_length_le _ _) ?_
      omega
  | removePlayer pid =>
    calc (stepOp room (.removePlayer pid)).players.length
        ≤ room.players.length := List.length_filter_le _ _
      _ ≤ room.maxPlayers := h
  | updatePlayerPosition pid x y vx vy =>
    simpa [stepOp, GameRoom.updatePlayerPosition] using h
  | throwBall c s pw => exact (throwBall_frame room c s pw).2.2.2.2.1.le.trans h
  | startGame now =>
    unfold stepOp GameRoom.startGame
    split_ifs <;> exact h
  | updateBall now => exact (updateBall_frame room now).2.2.1.le.trans h
  | pauseGame => exact h
  | resumeGame => exact h

/-- Unfolding one step of `runOps`. -/
lemma runOps_cons (room : GameRoom) (op : Op) (ops : List Op) :
    runOps room (op :: ops) = runOps (stepOp room op) ops := rfl

/-- Capacity invariant along any operation sequence. -/
lemma runOps_capacity (room : GameRoom) (ops : List Op)
    (h : room.players.length ≤ room.maxPlayers) (hm : room.maxPlayers = 6) :
    (runOps room ops).players.length ≤ 6 := by
  induction ops generalizing room with
  | nil => simpa [runOps, hm] using h
  | cons op ops ih =>
    rw [runOps_cons]
    exact ih (stepOp room op) (stepOp_capacity room op h)
      ((stepOp_maxPlayers room op).trans hm)

/-- Every operation either leaves `gameStartTime` unchanged or is a
successful `startGame`, which stamps it with the given clock value. -/
lemma stepOp_gameStartTime (room : GameRoom) (op : Op) :
    (stepOp room op).gameStartTime = room.gameStartTime ∨
    ∃ t, op = Op.startGame t ∧ 2 ≤ room.players.length ∧
      (stepOp room op).gameStartTime = some t := by
  cases op with
  | addPlayer pid pname =>
    left
    unfold stepOp GameRoom.addPlayer
    split_ifs <;> rfl
  | removePlayer pid => exact Or.inl rfl
  | updatePlayerPosition pid x y vx vy => exact Or.inl rfl
  | throwBall c s pw => exact Or.inl (throwBall_frame room c s pw).2.2.1
  | startGame t =>
    unfold stepOp GameRoom.startGame
    split_ifs with h2
    · exact Or.inr ⟨t, rfl, h2, rfl⟩
    · exact Or.inl rfl
  | updateBall now => exact Or.inl (updateBall_frame room now).2.2.2.2.1
  | pauseGame => exact Or.inl rfl
  | resumeGame => exact Or.inl rfl

/-- Once stamped, `gameStartTime` stays stamped along any sequence. -/
lemma runOps_gameStartTime_isSome (room : GameRoom) (t : ℚ) (ops : List Op)
    (h : room.gameStartTime = some t) :
    ∃ u, (runOps room ops).gameStartTime = some u := by
  induction ops generalizing room t with
  | nil => exact ⟨t, h⟩
  | cons op ops ih =>
    rw [runOps_cons]
    rcases stepOp_gameStartTime room op with h1 | ⟨u, -, -, h1⟩
    · exact ih (stepOp room op) t (h1.trans h)
    · exact ih (stepOp room op) u h1

/-- Entries of a list with nodup ids and equal ids are equal. -/
lemma players_id_inj {ps : List Player} (hnd : (ps.map Player.id).Nodup)
    {p q : Player} (hp : p ∈ ps) (hq : q ∈ ps) (h : p.id = q.id) : p = q :=
  List.inj_on_of_nodup_map hnd hp hq h

/-- A key that some member carries is found by `Map.get`. -/
lemma playersGet_mem (ps : List Player) (oid : String)
    (h : ∃ p ∈ ps, p.id = oid) :
    ∃ q, playersGet ps oid = some q ∧ q ∈ ps ∧ q.id = oid := by
  cases hfind : playersGet ps oid with
  | some q =>
    refine ⟨q, rfl, List.mem_of_find?_eq_some hfind, ?_⟩
    have := List.find?_some hfind
    simpa using this
  | none =>
    exfalso
    obtain ⟨p, hp, hid⟩ := h
    have := List.find?_eq_none.mp hfind p hp
    simp [hid] at this

/-- Inserting a genuinely fresh key appends it at the end of the map. -/
lemma playersSet_fresh (ps : List Player) (p : Player)
    (h : ∀ q ∈ ps, q.id ≠ p.id) : playersSet ps p = ps ++ [p] := by
  unfold playersSet
  rw [if_neg]
  intro hc
  rw [List.any_eq_true] at hc
  obtain ⟨q, hq, hqe⟩ := hc
  exact h q hq (by simpa using hqe)

/-- With capacity left and a fresh id, `addPlayer` succeeds and appends
exactly the join object of the source. -/
lemma addPlayer_fresh (room : GameRoom) (pid pname : String)
    (hcap : room.players.length < room.maxPlayers)
    (hfresh : ∀ q ∈ room.players, q.id ≠ pid) :
    room.addPlayer pid pname =
      (true, { room with players := room.players ++
        [{ id := pid
           name := pname
           team := if room.players.length < 3 then "team1" else "team2"
           x := if (if room.players.length < 3 then "team1" else "team2")
                    == "team1" then 100 else GAME_WIDTH - 100
           y := CENTER_Y + ((room.players.length % 3 : ℕ) : ℚ) * 80 - 80
           vx := 0
           vy := 0
           hasBall := false
           score := 0
           active := true }] }) := by
  simp only [GameRoom.addPlayer]
  rw [if_neg (by omega)]
  rw [playersSet_fresh room.players _ (fun q hq => hfresh q hq)]

/-- The possession predicate only depends on the owner and the players,
so it transports along any map that preserves ids and `hasBall`. -/
lemma possClaimOk_map (owner : Option String) (ps : List Player)
    (f : Player → Player) (hid : ∀ p, (f p).id = p.id)
    (hhb : ∀ p, (f p).hasBall = p.hasBall)
    (h : possClaimOk owner ps) : possClaimOk owner (ps.map f) := by
  obtain ⟨h1, h2⟩ := h
  constructor
  · rcases h1 with h1 | ⟨p, hp, hpe⟩
    · exact Or.inl h1
    · exact Or.inr ⟨f p, List.mem_map_of_mem f hp, by rw [hid]; exact hpe⟩
  · intro q hq
    obtain ⟨p, hp, rfl⟩ := List.mem_map.mp hq
    rw [hid, hhb]
    exact h2 p hp

/-- Id well-formedness also transports along id-preserving maps. -/
lemma idsOk_map (ps : List Player) (f : Player → Player)
    (hid : ∀ p, (f p).id = p.id) (h : idsOk ps) : idsOk (ps.map f) := by
  obtain ⟨h1, h2⟩ := h
  constructor
  · have he : List.map Player.id (ps.map f) = List.map Player.id ps := by
      rw [List.map_map]
      exact List.map_congr_left (fun p _ => hid p)
    rw [he]
    exact h1
  · intro q hq
    obtain ⟨p, hp, rfl⟩ := List.mem_map.mp hq
    rw [hid]
    exact h2 p hp

/-- After `resetBall` the possession invariant holds outright. -/
lemma possInv_resetBall (room : GameRoom) (hids : idsOk room.players) :
    PossInv room.resetBall := by
  unfold PossInv possClaimOk GameRoom.resetBall
  refine ⟨⟨Or.inl rfl, ?_⟩, ?_⟩
  · intro q hq
    obtain ⟨p, hp, rfl⟩ := List.mem_map.mp hq
    simp
  · exact idsOk_map room.players _ (fun p => rfl) hids

/-- Characterization of the pickup loop from a free ball over players who
all lack the ball: either nobody is in range and nothing changes, or the
first player in range takes the ball. -/
lemma pickupScan_none_char (b : Ball) (ps : List Player)
    (hb : b.owner = none) (hnd : (ps.map Player.id).Nodup)
    (hne : ∀ p ∈ ps, p.id ≠ "") :
    ((pickupScan b ps).1 = b ∧ (pickupScan b ps).2 = ps) ∨
    (∃ p ∈ ps, (pickupScan b ps).1 = { b with owner := some p.id } ∧
      (pickupScan b ps).2 = ps.map (fun q =>
        if q.id == p.id then { q with hasBall := true } else q)) := by
  induction ps generalizing b with
  | nil => exact Or.inl ⟨rfl, rfl⟩
  | cons p ps ih =>
    have hpne : p.id ≠ "" := hne p (List.mem_cons_self p ps)
    have hnd2 : (ps.map Player.id).Nodup := (List.nodup_cons.mp hnd).2
    have hpnotin : p.id ∉ ps.map Player.id := (List.nodup_cons.mp hnd).1
    by_cases hrange : distLt (b.x - p.x) (b.y - p.y) 35 = true
    · right
      have hstep : pickupStep b p =
          ({ b with owner := some p.id }, { p with hasBall := true }) := by
        unfold pickupStep
        rw [hb]
        simp [idTruthy, hrange]
      have hscan : pickupScan { b with owner := some p.id } ps =
          ({ b with owner := some p.id }, ps) :=
        pickupScan_truthy { b with owner := some p.id } ps
          (by simpa [idTruthy] using hpne)
      refine ⟨p, List.mem_cons_self p ps, ?_, ?_⟩
      · simp only [pickupScan, hstep, hscan]
      · simp only [pickupScan, hstep, hscan, List.map_cons,
          beq_self_eq_true, if_pos]
        congr 1
        have hcg : ∀ q ∈ ps,
            (if (q.id == p.id) = true then { q with hasBall := true } else q)
              = id q := by
          intro q hq
          have hqne : q.id ≠ p.id := by
            intro hcontra
            exact hpnotin (hcontra ▸ List.mem_map_of_mem Player.id hq)
          simp [hqne]
        rw [List.map_congr_left hcg, List.map_id]
    · have hrange2 : distLt (b.x - p.x) (b.y - p.y) 35 = false := by
        simpa using hrange
      have hstep : pickupStep b p = (b, p) := by
        unfold pickupStep
        rw [hb]
        simp [idTruthy, hrange2]
      rcases ih b hb hnd2 (fun q hq => hne q (List.mem_cons_of_mem p hq))
        with ⟨h1, h2⟩ | ⟨q, hq, h1, h2⟩
      · left
        constructor
        · simp only [pickupScan, hstep, h1]
        · simp only [pickupScan, hstep, h2]
      · right
        refine ⟨q, List.mem_cons_of_mem p hq, ?_, ?_⟩
        · simp only [pickupScan, hstep, h1]
        · simp only [pickupScan, hstep, h2, List.map_cons]
          have hpq : p.id ≠ q.id := by
            intro hcontra
            exact hpnotin (hcontra ▸ List.mem_map_of_mem Player.id hq)
          simp [hpq]

/-- The pickup phase preserves the possession invariant. -/
lemma possInv_pickupPhase (room : GameRoom) (h : PossInv room) :
    PossInv (pickupPhase room) := by
  obtain ⟨⟨hown, hiff⟩, hnd, hne⟩ := h
  by_cases ho : idTruthy room.ball.owner = true
  · unfold pickupPhase
    rw [pickupScan_truthy room.ball room.players ho]
    exact ⟨⟨hown, hiff⟩, hnd, hne⟩
  · have hbnone : room.ball.owner = none := by
      rcases hown with h0 | ⟨p, hp, hpe⟩
      · exact h0
      · exfalso
        apply ho
        rw [← hpe]
        simpa [idTruthy] using hne p hp
    rcases pickupScan_none_char room.ball room.players hbnone hnd hne
      with ⟨h1, h2⟩ | ⟨p, hp, h1, h2⟩
    · unfold pickupPhase
      rw [h1, h2]
      exact ⟨⟨hown, hiff⟩, hnd, hne⟩
    · unfold pickupPhase
      rw [h1, h2]
      have hmem : { p with hasBall := true } ∈ room.players.map (fun q =>
          if q.id == p.id then { q with hasBall := true } else q) := by
        have hfp : (fun q => if q.id == p.id then { q with hasBall := true }
            else q) p = { p with hasBall := true } := by simp
        rw [← hfp]
        exact List.mem_map_of_mem _ hp
      refine ⟨⟨Or.inr ⟨{ p with hasBall := true }, hmem, rfl⟩, ?_⟩, ?_⟩
      · intro q hq
        obtain ⟨q0, hq0, rfl⟩ := List.mem_map.mp hq
        by_cases hq0p : q0.id = p.id
        · simp [hq0p]
        · have hfalse : q0.hasBall = false := by
            have hx := hiff q0 hq0
            rw [hbnone] at hx
            simpa using hx
          have hne2 : ¬(p.id = q0.id) := fun hc => hq0p hc.symm
          have hif : (if (q0.id == p.id) = true then
              { q0 with hasBall := true } else q0) = q0 := by
            simp [hq0p]
          rw [hif]
          simp [hfalse, hne2]
      · exact idsOk_map room.players _
          (fun q => by by_cases hqq : q.id = p.id <;> simp [hqq]) ⟨hnd, hne⟩

/-- The possession invariant only reads the owner and the players. -/
lemma possInv_congr (r r2 : GameRoom) (hown : r2.ball.owner = r.ball.owner)
    (hps : r2.players = r.players) (h : PossInv r) : PossInv r2 := by
  unfold PossInv
  rw [hown, hps]
  exact h

/-- The basket check preserves the possession invariant whenever the
recorded owner is falsy. -/
lemma possInv_basketStep (r : GameRoom) (hfalsy : idTruthy r.ball.owner = false)
    (h : PossInv r) : PossInv (basketStep r) := by
  unfold basketStep
  split_ifs with hdist
  · rw [scorePoint_falsy _ _ (by simpa using hfalsy)]
    exact possInv_resetBall _ h.2
  · exact h

/-- The physics step preserves the possession invariant. -/
lemma possInv_updateBall (room : GameRoom) (now : ℚ) (h : PossInv room) :
    PossInv (room.updateBall now) := by
  unfold GameRoom.updateBall
  split_ifs with h1 h2
  · exact h
  · apply possInv_pickupPhase
    exact possInv_congr _ _ ((ownerCarry_frame _).2.2.2.2.2.2.2)
      ((ownerCarry_frame _).2.1) h
  · apply possInv_pickupPhase
    apply possInv_basketStep
    · show idTruthy (ballWalls (ballPhysics room.ball
        ((now - room.lastUpdate) / 1000))).owner = false
      rw [ballWalls_owner, ballPhysics_owner]
      simpa using h2
    · refine possInv_congr room _ ?_ rfl h
      show (ballWalls (ballPhysics room.ball
        ((now - room.lastUpdate) / 1000))).owner = room.ball.owner
      rw [ballWalls_owner, ballPhysics_owner]

/-- Joining with a fresh nonempty id preserves the possession invariant. -/
lemma possInv_addPlayer (room : GameRoom) (pid pname : String)
    (hpid : pid ≠ "") (hfresh : ∀ q ∈ room.players, q.id ≠ pid)
    (h : PossInv room) : PossInv (room.addPlayer pid pname).2 := by
  obtain ⟨⟨hown, hiff⟩, hnd, hne⟩ := h
  by_cases hfull : room.players.length ≥ room.maxPlayers
  · have hrej : room.addPlayer pid pname = (false, room) := by
      unfold GameRoom.addPlayer
      rw [if_pos hfull]
    rw [hrej]
    exact ⟨⟨hown, hiff⟩, hnd, hne⟩
  · rw [addPlayer_fresh room pid pname (by omega) hfresh]
    refine ⟨⟨?_, ?_⟩, ?_, ?_⟩
    · rcases hown with h0 | ⟨p, hp, hpe⟩
      · exact Or.inl h0
      · exact Or.inr ⟨p, List.mem_append_left _ hp, hpe⟩
    · intro q hq
      rcases List.mem_append.mp hq with hq | hq
      · exact hiff q hq
      · rw [List.mem_singleton] at hq
        subst hq
        refine ⟨fun hc => absurd hc (by simp), fun hc => ?_⟩
        exfalso
        rcases hown with h0 | ⟨p, hp, hpe⟩
        · rw [h0] at hc
          exact Option.noConfusion hc
        · rw [← hpe] at hc
          exact hfresh p hp (Option.some.inj hc)
    · rw [List.map_append]
      refine List.Nodup.append hnd (by simp) ?_
      intro a ha hb
      obtain ⟨q, hq, rfl⟩ := List.mem_map.mp ha
      simp only [List.map_cons, List.map_nil, List.mem_singleton] at hb
      exact hfresh q hq hb
    · intro q hq
      rcases List.mem_append.mp hq with hq | hq
      · exact hne q hq
      · rw [List.mem_singleton] at hq
        subst hq
        exact hpid

/-- Removing a player preserves the possession invariant, and removing the
owner clears ownership. -/
lemma possInv_removePlayer (room : GameRoom) (pid : String) (h : PossInv room) :
    PossInv (room.removePlayer pid).2 ∧
    (room.ball.owner = some pid → (room.removePlayer pid).2.ball.owner = none) := by
  obtain ⟨⟨hown, hiff⟩, hnd, hne⟩ := h
  have hndf : ((playersDelete room.players pid).map Player.id).Nodup := by
    exact List.Nodup.sublist ((List.filter_sublist _).map _) hnd
  have hnef : ∀ q ∈ playersDelete room.players pid, q.id ≠ "" :=
    fun q hq => hne q (List.mem_of_mem_filter hq)
  constructor
  · unfold GameRoom.removePlayer
    split_ifs with hox
    · refine ⟨⟨Or.inl rfl, ?_⟩, hndf, hnef⟩
      intro q hq
      have hq2 : q ∈ room.players := List.mem_of_mem_filter hq
      have hqid : q.id ≠ pid := by
        have hof := List.of_mem_filter hq
        simpa using hof
      have hx := hiff q hq2
      rw [hox] at hx
      refine ⟨fun hb => ?_, fun hc => Option.noConfusion hc⟩
      exact absurd (Option.some.inj (hx.mp hb)).symm hqid
    · refine ⟨⟨?_, ?_⟩, hndf, hnef⟩
      · rcases hown with h0 | ⟨p, hp, hpe⟩
        · exact Or.inl h0
        · refine Or.inr ⟨p, ?_, hpe⟩
          refine List.mem_filter.mpr ⟨hp, ?_⟩
          simp only [Bool.not_eq_eq_eq_not, Bool.not_true, beq_eq_false_iff_ne,
            ne_eq]
          intro hc
          exact hox (by rw [← hpe, hc])
      · intro q hq
        exact hiff q (List.mem_of_mem_filter hq)
  · intro hox
    unfold GameRoom.removePlayer
    rw [if_pos hox]

/-- Client position updates preserve the possession invariant. -/
lemma possInv_updatePlayerPosition (room : GameRoom) (pid : String)
    (x y vx vy : ℚ) (h : PossInv room) :
    PossInv (room.updatePlayerPosition pid x y vx vy) := by
  obtain ⟨hclaim, hids⟩ := h
  unfold GameRoom.updatePlayerPosition
  refine ⟨possClaimOk_map _ _ _ ?_ ?_ hclaim, idsOk_map _ _ ?_ hids⟩ <;>
    intro p <;> by_cases hp : p.id = pid <;> simp [hp]

/-- Throwing preserves the possession invariant (and frees the ball). -/
lemma possInv_throwBall (room : GameRoom) (c s pw : ℚ) (h : PossInv room) :
    PossInv (room.throwBall c s pw) := by
  obtain ⟨⟨hown, hiff⟩, hnd, hne⟩ := h
  obtain ⟨rid, ps, ball, sc, gs, lu, gst, mp⟩ := room
  obtain ⟨bx, by2, bvx, bvy, bowner, binb⟩ := ball
  simp only at hown hiff hnd hne
  cases bowner with
  | none => exact ⟨⟨hown, hiff⟩, hnd, hne⟩
  | some oid =>
    unfold GameRoom.throwBall
    by_cases hoid : oid = ""
    · subst hoid
      simp only [idTruthy, beq_self_eq_true, Bool.not_true, if_false]
      exact ⟨⟨hown, hiff⟩, hnd, hne⟩
    · rw [if_pos (by simpa [idTruthy] using hoid)]
      dsimp only
      cases hget : playersGet ps oid with
      | none => exact ⟨⟨hown, hiff⟩, hnd, hne⟩
      | some q =>
        refine ⟨⟨Or.inl rfl, ?_⟩, idsOk_map _ _
          (fun r => by by_cases hrr : r.id = oid <;> simp [hrr]) ⟨hnd, hne⟩⟩
        intro r hr
        obtain ⟨r0, hr0, rfl⟩ := List.mem_map.mp hr
        by_cases hr0id : r0.id = oid
        · simp [hr0id]
        · have hfalse : r0.hasBall = false := by
            by_contra hb
            rw [Bool.not_eq_false] at hb
            have hx := hiff r0 hr0
            exact hr0id (Option.some.inj (hx.mp hb)).symm
          simp [hr0id, hfalse]

/-- Starting the game preserves the possession invariant. -/
lemma possInv_startGame (room : GameRoom) (now : ℚ) (h : PossInv room) :
    PossInv (room.startGame now).2 := by
  unfold GameRoom.startGame
  split_ifs <;> exact h

/-- Characterization of a throw from an owned ball: velocity becomes the
direction vector scaled by `min(power, 100) / 100`, ownership clears and
the owner drops the ball. -/
lemma throwBall_owned (room : GameRoom) (c s pw : ℚ) (oid : String)
    (q : Player) (ho : room.ball.owner = some oid) (hne : oid ≠ "")
    (hget : playersGet room.players oid = some q) :
    room.throwBall c s pw =
      { room with
        ball := { room.ball with
                  vx := c * (min pw 100 / 100)
                  vy := s * (min pw 100 / 100)
                  owner := none }
        players := room.players.map (fun r =>
          if r.id == oid then { r with hasBall := false } else r) } := by
  unfold GameRoom.throwBall
  rw [ho, if_pos (by simpa [idTruthy] using hne)]
  dsimp only
  rw [hget]

/-! ### Claim theorems -/

/-- Claim C1: the claim says a basket entry from an owned shot awards 2
points. In the code the basket branch is only reachable with a falsy
`ball.owner` (throwing clears ownership before flight), so `scorePoint`
always returns early: no physics step can ever change the team score or
any personal score. The second part evaluates the failing input: a free
ball on the basket point scores nothing and the ball resets to
center-field with no owner. -/
theorem C1_basket_scoring_dead :
    (∀ (room : GameRoom) (now : ℚ),
      (room.updateBall now).score = room.score ∧
      (room.updateBall now).players.map Player.score =
        room.players.map Player.score) ∧
    ((roomBasket.updateBall 1).score = { team1 := 0, team2 := 0 } ∧
      (roomBasket.updateBall 1).ball.x = CENTER_X ∧
      (roomBasket.updateBall 1).ball.y = CENTER_Y ∧
      (roomBasket.updateBall 1).ball.vx = 0 ∧
      (roomBasket.updateBall 1).ball.vy = 0 ∧
      (roomBasket.updateBall 1).ball.owner = none ∧
      (roomBasket.updateBall 1).ball.inBasket = false ∧
      ∀ p ∈ (roomBasket.updateBall 1).players, p.hasBall = false) := by
  constructor
  · intro room now
    exact ⟨(updateBall_frame room now).1, (updateBall_frame room now).2.1⟩
  · norm_num [GameRoom.updateBall, roomBasket, idTruthy, basketStep, ballWalls,
      wallLeft, wallRight, wallTop, wallBottom, ballPhysics, distLt,
      GAME_WIDTH, GAME_HEIGHT, BALL_RADIUS, BASKET_X, BASKET_Y, CENTER_X,
      CENTER_Y, BALL_SPEED, GameRoom.scorePoint, GameRoom.resetBall,
      pickupPhase, pickupScan, pickupStep, pA, pB, playersGet]

/-- Claim C2, counterexample: `addPlayer` with an id that is already
present (a second `join-room` from the same socket) replaces the player
object with a fresh one whose `hasBall` is false while `ball.owner` still
names that id, breaking the stated invariant. -/
theorem C2_duplicate_join_cex :
    PossInvClaim roomDup ∧
    ¬ PossInvClaim (roomDup.addPlayer "a" "again").2 := by
  decide

/-- Claim C2 (amended): provided player ids are nonempty session ids,
distinct in the map, and `addPlayer` is invoked with a fresh nonempty id,
the possession invariant (owner is null or a present player id, a player
has `hasBall` exactly when they are the owner, hence at most one carrier)
is preserved by every room operation, and removing the owner clears
`ball.owner`. -/
theorem C2_possession_invariant (room : GameRoom) (h : PossInv room) :
    (∀ p ∈ room.players, ∀ q ∈ room.players,
      p.hasBall = true → q.hasBall = true → p = q) ∧
    (∀ pid pname, pid ≠ "" → (∀ q ∈ room.players, q.id ≠ pid) →
      PossInv (room.addPlayer pid pname).2) ∧
    (∀ pid, PossInv (room.removePlayer pid).2 ∧
      (room.ball.owner = some pid →
        (room.removePlayer pid).2.ball.owner = none)) ∧
    (∀ pid x y vx vy, PossInv (room.updatePlayerPosition pid x y vx vy)) ∧
    (∀ c s pw, PossInv (room.throwBall c s pw)) ∧
    (∀ now, PossInv (room.startGame now).2) ∧
    (∀ now, PossInv (room.updateBall now)) := by
  refine ⟨?_, fun pid pname h1 h2 => possInv_addPlayer room pid pname h1 h2 h,
    fun pid => possInv_removePlayer room pid h,
    fun pid x y vx vy => possInv_updatePlayerPosition room pid x y vx vy h,
    fun c s pw => possInv_throwBall room c s pw h,
    fun now => possInv_startGame room now h,
    fun now => possInv_updateBall room now h⟩
  intro p hp q hq hpb hqb
  obtain ⟨⟨hown2, hiff⟩, hnd, hne⟩ := h
  have e1 := (hiff p hp).mp hpb
  have e2 := (hiff q hq).mp hqb
  rw [e1] at e2
  exact players_id_inj hnd hp hq (Option.some.inj e2)

/-- Witness for C2: a concrete owned room satisfies the invariant and one
physics step preserves it. -/
theorem C2_possession_witness :
    PossInv roomOwned ∧ PossInv (roomOwned.updateBall 1) :=
  ⟨by decide, (C2_possession_invariant roomOwned (by decide)).2.2.2.2.2.2 1⟩

/-- Claim C3, counterexample: the claim says power is clamped to the
interval from 0 to 100 before normalizing; the source computes
`Math.min(power, 100) / 100` with no lower clamp, so an owned throw with
direction 0 and power -100 produces `vx = -1`, not the 0 the claimed
clamping formula yields. -/
theorem C3_power_clamp_cex :
    (roomOwned.throwBall 1 0 (-100)).ball.vx = -1 ∧
    specNormalizedPower (-100) = 0 ∧
    (roomOwned.throwBall 1 0 (-100)).ball.vx ≠ 1 * specNormalizedPower (-100) := by
  have hvx : (roomOwned.throwBall 1 0 (-100)).ball.vx = -1 := by
    rw [throwBall_owned roomOwned 1 0 (-100) "a" pOwn rfl (by decide) (by decide)]
    show (1 : ℚ) * (min (-100) 100 / 100) = -1
    norm_num [min_def]
  have hsp : specNormalizedPower (-100) = 0 := by
    unfold specNormalizedPower
    norm_num [min_def, max_def]
  refine ⟨hvx, hsp, ?_⟩
  rw [hvx, hsp]
  norm_num

/-- Claim C3 (amended): `throwBall` is a no-op when the ball has no owner;
when the owner is a present player, power is capped above at 100 and
divided by 100 (no lower clamp), the velocity becomes the direction
vector scaled by that factor, ownership is cleared and the owner drops the
ball; the position is untouched. With direction 0 (cosine 1, sine 0) and
power 100 this gives the claimed round trip `vx = 1, vy = 0, owner =
null`. -/
theorem C3_throwBall_amended (room : GameRoom) (c s pw : ℚ) :
    (room.ball.owner = none → room.throwBall c s pw = room) ∧
    (∀ oid q, room.ball.owner = some oid → oid ≠ "" →
      playersGet room.players oid = some q →
      (room.throwBall c s pw).ball.vx = c * (min pw 100 / 100) ∧
      (room.throwBall c s pw).ball.vy = s * (min pw 100 / 100) ∧
      (room.throwBall c s pw).ball.owner = none ∧
      (room.throwBall c s pw).ball.x = room.ball.x ∧
      (room.throwBall c s pw).ball.y = room.ball.y ∧
      (∀ r ∈ (room.throwBall c s pw).players, r.id = oid →
        r.hasBall = false)) := by
  constructor
  · intro h
    unfold GameRoom.throwBall
    rw [h]
    rfl
  · intro oid q ho hne hget
    rw [throwBall_owned room c s pw oid q ho hne hget]
    refine ⟨rfl, rfl, rfl, rfl, rfl, ?_⟩
    intro r hr hrid
    obtain ⟨r0, hr0, rfl⟩ := List.mem_map.mp hr
    by_cases hr0id : r0.id = oid
    · simp [hr0id]
    · rw [if_neg (by simpa using hr0id)] at hrid
      exact absurd hrid hr0id

/-- Witness for C3: the round trip of the claim on a concrete owned
room. -/
theorem C3_throwBall_witness :
    (roomOwned.throwBall 1 0 100).ball.vx = 1 ∧
    (roomOwned.throwBall 1 0 100).ball.vy = 0 ∧
    (roomOwned.throwBall 1 0 100).ball.owner = none := by
  obtain ⟨hvx, hvy, hown2, -, -, -⟩ :=
    (C3_throwBall_amended roomOwned 1 0 100).2 "a" pOwn rfl (by decide)
      (by decide)
  refine ⟨?_, ?_, hown2⟩
  · rw [hvx]
    norm_num [min_self]
  · rw [hvy]
    norm_num [min_self]

/-- Claim C4: starting from the constructor state, no operation sequence
can push the player count above 6, and `addPlayer` on a full room rejects
with the room state unchanged. -/
theorem C4_capacity (rid : String) (t0 : ℚ) (ops : List Op) :
    (runOps (GameRoom.init rid t0) ops).players.length ≤ 6 ∧
    (∀ (room : GameRoom) (pid pname : String),
      room.maxPlayers ≤ room.players.length →
      room.addPlayer pid pname = (false, room)) := by
  constructor
  · exact runOps_capacity (GameRoom.init rid t0) ops
      (by norm_num [GameRoom.init]) rfl
  · intro room pid pname h
    unfold GameRoom.addPlayer
    rw [if_pos (by omega)]

/-- Witness for C4: the empty sequence keeps the bound, and a concrete
seventh join on a full room is rejected with no state change. -/
theorem C4_capacity_witness :
    (runOps (GameRoom.init "r" 0) []).players.length ≤ 6 ∧
    roomFull.addPlayer "g" "G" = (false, roomFull) :=
  ⟨(C4_capacity "r" 0 []).1,
   (C4_capacity "r" 0 []).2 roomFull "g" "G" (by decide)⟩

/-- Claim C5: the claim says that after pause-game followed by
resume-game physics steps continue. In the code only the start-game
handler ever calls `startGameLoop`; once the interval observes a
non-playing phase it cancels itself, and resume-game does not restart it.
After the trace start, pause, one tick, resume, the room is in the
playing phase with no registered timer, and every further tick is a no-op:
`updateBall` is never invoked again. -/
theorem C5_resume_without_loop :
    sPauseResume.room.gameState = "playing" ∧
    sPauseResume.loopRunning = false ∧
    (∀ now, srvStep sPauseResume (SEv.tick now) = sPauseResume) := by
  refine ⟨by decide, by decide, fun now => ?_⟩
  have hl : sPauseResume.loopRunning = false := by decide
  have hstep : srvStep sPauseResume (SEv.tick now) =
      if sPauseResume.loopRunning = true then
        (if sPauseResume.room.gameState ≠ "playing" then
          { sPauseResume with loopRunning := false }
        else { sPauseResume with room := sPauseResume.room.updateBall now })
      else sPauseResume := rfl
  rw [hstep, hl]
  simp

/-- Claim C6, counterexample: after joins a, b, c, removal of a, and a
join of d, the fourth joiner d is assigned team1 (team is computed from
the current player count, not the join ordinal), while the claim says the
4th joiner gets team2. -/
theorem C6_join_order_cex :
    (playersGet roomC6.players "d").map Player.team = some "team1" ∧
    "team1" ≠ "team2" := by
  decide

/-- Claim C6 (amended): the team of a successful join is a function of
the player count at join time: count below 3 gives team1 with spawn x =
100, otherwise team2 with spawn x = GAME_WIDTH - 100, and spawn
y = CENTER_Y + (count mod 3) * 80 - 80. In a removal-free join sequence
the count equals the join ordinal minus one, so joiners 1 to 3 get team1
and 4 to 6 get team2; with removals the count can fall, making a later
joiner team1 again. -/
theorem C6_team_by_size (room : GameRoom) (pid pname : String)
    (hcap : room.players.length < room.maxPlayers)
    (hfresh : ∀ q ∈ room.players, q.id ≠ pid) :
    (room.addPlayer pid pname).1 = true ∧
    ∃ p : Player,
      (room.addPlayer pid pname).2.players = room.players ++ [p] ∧
      p.id = pid ∧ p.name = pname ∧
      p.team = (if room.players.length < 3 then "team1" else "team2") ∧
      p.x = (if room.players.length < 3 then (100 : ℚ) else GAME_WIDTH - 100) ∧
      p.y = CENTER_Y + ((room.players.length % 3 : ℕ) : ℚ) * 80 - 80 ∧
      p.vx = 0 ∧ p.vy = 0 ∧ p.hasBall = false ∧ p.score = 0 ∧
      p.active = true := by
  rw [addPlayer_fresh room pid pname hcap hfresh]
  refine ⟨rfl,
    ⟨{ id := pid, name := pname,
       team := if room.players.length < 3 then "team1" else "team2",
       x := if (if room.players.length < 3 then "team1" else "team2")
                == "team1" then 100 else GAME_WIDTH - 100,
       y := CENTER_Y + ((room.players.length % 3 : ℕ) : ℚ) * 80 - 80,
       vx := 0, vy := 0, hasBall := false, score := 0, active := true },
     rfl, rfl, rfl, rfl, ?_, rfl, rfl, rfl, rfl, rfl, rfl⟩⟩
  by_cases h3 : room.players.length < 3 <;> simp [h3]

/-- Witness for C6: a third join on a two-player room lands on team1. -/
theorem C6_team_by_size_witness :
    (roomTwoW.addPlayer "c" "C").1 = true ∧
    ∃ p : Player,
      (roomTwoW.addPlayer "c" "C").2.players = roomTwoW.players ++ [p] ∧
      p.team = "team1" := by
  obtain ⟨h1, p, hps, hid, hname, hteam, hx, hy, hvx, hvy, hhb, hsc, hact⟩ :=
    C6_team_by_size roomTwoW "c" "C" (by decide) (by decide)
  refine ⟨h1, p, hps, ?_⟩
  rw [hteam]
  decide

/-- Claim C7, counterexample: `startGame` has no phase guard, so a second
start-game intent on a playing room re-stamps `gameStartTime` with a new
clock value: it is not set exactly once. -/
theorem C7_gameStartTime_cex :
    (roomTwoW.startGame 5).2.gameStartTime = some 5 ∧
    ((roomTwoW.startGame 5).2.startGame 9).2.gameStartTime = some 9 ∧
    some (5 : ℚ) ≠ some (9 : ℚ) := by
  decide

/-- Claim C7 (amended): `gameStartTime` is null in the constructor state;
among the room operations only a successful `startGame` (at least 2
players) modifies it, stamping the current clock value — so repeated
successful `startGame` calls re-stamp it — and once set it is never null
again for any subsequent operation sequence. -/
theorem C7_gameStartTime_amended (room : GameRoom) :
    (∀ rid t0, (GameRoom.init rid t0).gameStartTime = none) ∧
    (∀ op, (stepOp room op).gameStartTime = room.gameStartTime ∨
      ∃ t, op = Op.startGame t ∧ 2 ≤ room.players.length ∧
        (stepOp room op).gameStartTime = some t) ∧
    (∀ t ops, room.gameStartTime = some t →
      ∃ u, (runOps room ops).gameStartTime = some u) :=
  ⟨fun _ _ => rfl, stepOp_gameStartTime room,
   fun t ops h => runOps_gameStartTime_isSome room t ops h⟩

/-- Witness for C7: after a successful start, pausing, one physics step
and resuming leave `gameStartTime` stamped. -/
theorem C7_gameStartTime_witness :
    ∃ u, (runOps (roomTwoW.startGame 5).2
      [Op.pauseGame, Op.updateBall 7, Op.resumeGame]).gameStartTime
        = some u :=
  (C7_gameStartTime_amended (roomTwoW.startGame 5).2).2.2 5
    [Op.pauseGame, Op.updateBall 7, Op.resumeGame] (by decide)

/-- Claim C8: `startGame` rejects below 2 players leaving the room
unchanged, and with at least 2 players it succeeds, flips the phase to
playing, stamps `gameStartTime` and resets `lastUpdate` to the current
clock (so the first tick measures a near-zero delta). -/
theorem C8_startGame_boundary (room : GameRoom) (now : ℚ) :
    (room.players.length < 2 → room.startGame now = (false, room)) ∧
    (2 ≤ room.players.length →
      (room.startGame now).1 = true ∧
      (room.startGame now).2 =
        { room with
          gameState := "playing"
          gameStartTime := some now
          lastUpdate := now }) := by
  constructor
  · intro h
    unfold GameRoom.startGame
    rw [if_neg (by omega)]
  · intro h
    unfold GameRoom.startGame
    rw [if_pos (by omega)]
    exact ⟨rfl, rfl⟩

/-- Witness for C8: rejection on an empty room and success exactly at the
boundary of two players. -/
theorem C8_startGame_witness :
    (GameRoom.init "w" 0).startGame 5 = (false, GameRoom.init "w" 0) ∧
    (roomTwoW.startGame 5).1 = true ∧
    (roomTwoW.startGame 5).2 =
      { roomTwoW with
        gameState := "playing"
        gameStartTime := some 5
        lastUpdate := 5 } :=
  ⟨(C8_startGame_boundary (GameRoom.init "w" 0) 5).1 (by decide),
   ((C8_startGame_boundary roomTwoW 5).2 (by decide)).1,
   ((C8_startGame_boundary roomTwoW 5).2 (by decide)).2⟩

/-- Claim C9: each of the four boundary checks clamps the position to the
boundary and reflects the velocity component inward, with the 0.7
restitution factor at the bottom only; and a free ball at x = -5 with
vx = -3 ends one physics step (any nonnegative elapsed time) at
x = BALL_RADIUS with vx positive. -/
theorem C9_wall_bounce (room : GameRoom) (now : ℚ)
    (hphase : room.gameState = "playing") (hown2 : room.ball.owner = none)
    (hx : room.ball.x = -5) (hvx : room.ball.vx = -3)
    (hdt : room.lastUpdate ≤ now) :
    (∀ b : Ball,
      (b.x - BALL_RADIUS < 0 →
        (ballWalls b).x = BALL_RADIUS ∧ (ballWalls b).vx = |b.vx|) ∧
      (b.x + BALL_RADIUS > GAME_WIDTH →
        (ballWalls b).x = GAME_WIDTH - BALL_RADIUS ∧
          (ballWalls b).vx = -|b.vx|) ∧
      (b.y - BALL_RADIUS < 0 →
        (ballWalls b).y = BALL_RADIUS ∧ (ballWalls b).vy = |b.vy|) ∧
      (b.y + BALL_RADIUS > GAME_HEIGHT →
        (ballWalls b).y = GAME_HEIGHT - BALL_RADIUS ∧
          (ballWalls b).vy = -|b.vy| * 0.7)) ∧
    ((room.updateBall now).ball.x = BALL_RADIUS ∧
      0 < (room.updateBall now).ball.vx) := by
  constructor
  · intro b
    exact ⟨ballWalls_left b, ballWalls_right b, ballWalls_top b,
      ballWalls_bottom b⟩
  · have hdt0 : 0 ≤ (now - room.lastUpdate) / 1000 := by
      have hs : 0 ≤ now - room.lastUpdate := by linarith
      exact div_nonneg hs (by norm_num)
    have hphysx : (ballPhysics room.ball ((now - room.lastUpdate) / 1000)).x
        = -5 + -3 * ((now - room.lastUpdate) / 1000) * BALL_SPEED := by
      unfold ballPhysics
      rw [← hx, ← hvx]
    have hphysvx :
        (ballPhysics room.ball ((now - room.lastUpdate) / 1000)).vx
          = -3 * 0.98 := by
      unfold ballPhysics
      rw [← hvx]
    have hcross : (ballPhysics room.ball ((now - room.lastUpdate) / 1000)).x
        - BALL_RADIUS < 0 := by
      rw [hphysx]
      norm_num [BALL_RADIUS, BALL_SPEED]
      nlinarith [hdt0]
    have hwx := ballWalls_left _ hcross
    have hub : room.updateBall now = pickupPhase (basketStep
        { room with
          lastUpdate := now
          ball := ballWalls (ballPhysics room.ball
            ((now - room.lastUpdate) / 1000)) }) := by
      unfold GameRoom.updateBall
      rw [if_neg (by simp [hphase])]
      rw [show idTruthy room.ball.owner = false by rw [hown2]; rfl]
      rfl
    rw [hub]
    rw [basketStep_far _ hwx.1]
    constructor
    · rw [(pickupPhase_frame _).2.2.2.2.2.2.2.2.2.1]
      exact hwx.1
    · rw [(pickupPhase_frame _).2.2.2.2.2.2.2.2.2.2]
      rw [hwx.2, hphysvx]
      exact abs_pos.mpr (by norm_num)

/-- Witness for C9: the concrete room of the spec scenario. -/
theorem C9_wall_bounce_witness :
    (roomWall.updateBall 16).ball.x = BALL_RADIUS ∧
    0 < (roomWall.updateBall 16).ball.vx :=
  (C9_wall_bounce roomWall 16 rfl rfl rfl rfl (by decide)).2

/-- Claim C10: with capacity left and a fresh session id, `addPlayer`
succeeds in every phase (capacity is the only precondition read) and its
whole effect is appending the new player: ball, score, phase,
`gameStartTime`, `lastUpdate`, `maxPlayers` and every existing player are
untouched. -/
theorem C10_addPlayer_frame (room : GameRoom) (pid pname : String)
    (hcap : room.players.length < room.maxPlayers)
    (hfresh : ∀ q ∈ room.players, q.id ≠ pid) :
    (room.addPlayer pid pname).1 = true ∧
    ∃ p : Player,
      (room.addPlayer pid pname).2 =
        { room with players := room.players ++ [p] } ∧
      p.id = pid ∧
      (room.addPlayer pid pname).2.ball = room.ball ∧
      (room.addPlayer pid pname).2.score = room.score ∧
      (room.addPlayer pid pname).2.gameState = room.gameState ∧
      (room.addPlayer pid pname).2.gameStartTime = room.gameStartTime ∧
      (room.addPlayer pid pname).2.lastUpdate = room.lastUpdate ∧
      (room.addPlayer pid pname).2.maxPlayers = room.maxPlayers ∧
      (∀ q ∈ room.players, q ∈ (room.addPlayer pid pname).2.players) := by
  rw [addPlayer_fresh room pid pname hcap hfresh]
  refine ⟨rfl, _, rfl, rfl, rfl, rfl, rfl, rfl, rfl, rfl, ?_⟩
  intro q hq
  exact List.mem_append_left _ hq

/-- Witness for C10: a join into a room that is already playing succeeds
and leaves ball, score and phase alone. -/
theorem C10_addPlayer_frame_witness :
    (roomOwned.addPlayer "b" "B").1 = true ∧
    (roomOwned.addPlayer "b" "B").2.score = roomOwned.score ∧
    (roomOwned.addPlayer "b" "B").2.gameState = roomOwned.gameState ∧
    (roomOwned.addPlayer "b" "B").2.ball = roomOwned.ball := by
  obtain ⟨h1, p, heq, hid, hball, hscore, hgs, hgst, hlu, hmax, hmem⟩ :=
    C10_addPlayer_frame roomOwned "b" "B" (by decide) (by decide)
  exact ⟨h1, hscore, hgs, hball⟩
